import Mathlib

/-!
Verification of the natural-language time parser `_parse_natural_time`
from `src/bot/handlers/quick_commands.py` (lines 259-373).

The parser is embedded shallowly: Python's `re` module is modelled by a
small backtracking regular-expression engine restricted to the constructs
the source patterns use (literals, character classes, bounded/unbounded
greedy repetition, optionals, alternation, capture groups), with Python's
leftmost-match / greedy-with-backtracking order.  Python `datetime` values
are modelled as an ordinal day (`date.toordinal`) plus seconds within the
day; Python's `OverflowError` behaviour of `timedelta` construction and
`datetime` addition (raised, not caught, by the source) is modelled by a
dedicated `raised` outcome.  Character classes are modelled at ASCII
granularity, which covers every string the source patterns can match.
-/

namespace QuickSched

abbrev Str := List Char

/-- ASCII model of Python's `\s` class and of `str.strip()` whitespace. -/
def wsC (c : Char) : Bool :=
  c == ' ' || c == '\t' || c == '\n' || c == '\r' || c == '\x0b' || c == '\x0c'

/-- ASCII model of Python's `\d` class. -/
def dgC (c : Char) : Bool := c.isDigit

/-- The characters stripped by `title.strip(' ,-:')` (line 371). -/
def punctC (c : Char) : Bool := c == ' ' || c == ',' || c == '-' || c == ':'

/-- Regular expressions, restricted to the constructs used by the source
patterns.  Repetition is only ever applied to single-character classes,
exactly as in the source (`\s+`, `\s*`, `\d+`, `\d{1,2}`, `\d{2}`,
`\d{0,2}`). -/
inductive RE where
  | lit : Str → RE
  | rep : (Char → Bool) → Nat → Nat → RE
  | star : (Char → Bool) → RE
  | plus : (Char → Bool) → RE
  | opt : RE → RE
  | alt : RE → RE → RE
  | seq : RE → RE → RE
  | grp : Nat → RE → RE

/-- Length of the longest prefix of `s` whose characters all satisfy `p`. -/
def maxRun (p : Char → Bool) : Str → Nat
  | [] => 0
  | c :: t => if p c then maxRun p t + 1 else 0

/-- `[hi, hi-1, ..., lo]`: the order in which a greedy repetition tries
consumption counts. -/
def countsDown (hi lo : Nat) : List Nat :=
  if hi < lo then [] else (List.range (hi - lo + 1)).map (fun i => hi - i)

/-- First success of `f` over a list of candidates, in order. -/
def firstSome {α : Type} (f : Nat → Option α) : List Nat → Option α
  | [] => none
  | n :: t =>
    match f n with
    | some r => some r
    | none => firstSome f t

/-- Capture environment: most recent binding for a group number wins. -/
abbrev Caps := List (Nat × Str)

def capGet (cs : Caps) (n : Nat) : Option Str :=
  match cs.find? (fun x => x.1 == n) with
  | some x => some x.2
  | none => none

/-- Backtracking matcher in continuation-passing style.  Alternatives,
optionals and repetitions are tried in Python `re`'s greedy order; the
first path on which the continuation succeeds wins. -/
def reMatch : RE → Str → Caps → (Str → Caps → Option (Str × Caps)) → Option (Str × Caps)
  | .lit l, s, cs, k => if l.isPrefixOf s then k (s.drop l.length) cs else none
  | .rep p lo hi, s, cs, k =>
    let m := min hi (maxRun p s)
    if m < lo then none else firstSome (fun n => k (s.drop n) cs) (countsDown m lo)
  | .star p, s, cs, k => firstSome (fun n => k (s.drop n) cs) (countsDown (maxRun p s) 0)
  | .plus p, s, cs, k =>
    let m := maxRun p s
    if m = 0 then none else firstSome (fun n => k (s.drop n) cs) (countsDown m 1)
  | .opt r, s, cs, k =>
    match reMatch r s cs k with
    | some res => some res
    | none => k s cs
  | .alt a b, s, cs, k =>
    match reMatch a s cs k with
    | some res => some res
    | none => reMatch b s cs k
  | .seq a b, s, cs, k => reMatch a s cs (fun s1 cs1 => reMatch b s1 cs1 k)
  | .grp n r, s, cs, k =>
    reMatch r s cs (fun s1 cs1 => k s1 ((n, s.take (s.length - s1.length)) :: cs1))

/-- `re.search`: try each start position left to right; on the first
position where the pattern matches, return (start, matched length,
captures). -/
def searchFrom (r : RE) : Str → Nat → Option (Nat × Nat × Caps)
  | s, i =>
    match reMatch r s [] (fun s1 cs => some (s1, cs)) with
    | some (s1, cs) => some (i, s.length - s1.length, cs)
    | none =>
      match s with
      | [] => none
      | _ :: t => searchFrom r t (i + 1)

def reSearch (r : RE) (s : Str) : Option (Nat × Nat × Caps) := searchFrom r s 0

/-- `re.sub(pattern, '', s)`: delete every non-overlapping occurrence,
scanning left to right.  Fuel bounds the number of replacements; every
source pattern matches at least one character, so `s.length` fuel is
always enough. -/
def reSubFuel (r : RE) : Nat → Str → Str
  | 0, s => s
  | fuel + 1, s =>
    match reSearch r s with
    | none => s
    | some (i, len, _) =>
      if len = 0 then
        match s with
        | [] => []
        | c :: t => c :: reSubFuel r fuel t
      else s.take i ++ reSubFuel r fuel (s.drop (i + len))

def reSubAll (r : RE) (s : Str) : Str := reSubFuel r s.length s

/-- `in\s+(\d+)\s*hours?` (line 298); also the span deleted by the sub on
line 302, whose pattern differs only by the capturing parentheses. -/
def Pin : RE :=
  .seq (.lit ("in".toList))
    (.seq (.plus wsC)
      (.seq (.grp 1 (.plus dgC))
        (.seq (.star wsC)
          (.seq (.lit ("hour".toList)) (.opt (.lit ("s".toList)))))))

/-- `at\s+(\d{1,2}):?(\d{2})?\s*(am|pm)?` (line 278). -/
def P1 : RE :=
  .seq (.lit ("at".toList))
    (.seq (.plus wsC)
      (.seq (.grp 1 (.rep dgC 1 2))
        (.seq (.opt (.lit (":".toList)))
          (.seq (.opt (.grp 2 (.rep dgC 2 2)))
            (.seq (.star wsC)
              (.opt (.grp 3 (.alt (.lit ("am".toList)) (.lit ("pm".toList))))))))))

/-- `(\d{1,2}):(\d{2})\s*(am|pm)?` (line 280). -/
def P2 : RE :=
  .seq (.grp 1 (.rep dgC 1 2))
    (.seq (.lit (":".toList))
      (.seq (.grp 2 (.rep dgC 2 2))
        (.seq (.star wsC)
          (.opt (.grp 3 (.alt (.lit ("am".toList)) (.lit ("pm".toList))))))))

/-- `(\d{1,2})\s*(am|pm)` (line 281). -/
def P3 : RE :=
  .seq (.grp 1 (.rep dgC 1 2))
    (.seq (.star wsC)
      (.grp 2 (.alt (.lit ("am".toList)) (.lit ("pm".toList)))))

/-- `(next\s+)?(today|tomorrow|monday|...|sunday)` (line 367). -/
def S0 : RE :=
  .seq (.opt (.seq (.lit ("next".toList)) (.plus wsC)))
    (.alt (.lit ("today".toList))
      (.alt (.lit ("tomorrow".toList))
        (.alt (.lit ("monday".toList))
          (.alt (.lit ("tuesday".toList))
            (.alt (.lit ("wednesday".toList))
              (.alt (.lit ("thursday".toList))
                (.alt (.lit ("friday".toList))
                  (.alt (.lit ("saturday".toList)) (.lit ("sunday".toList))))))))))

/-- `at\s+\d{1,2}:?\d{0,2}\s*(am|pm)?` (line 368). -/
def S1 : RE :=
  .seq (.lit ("at".toList))
    (.seq (.plus wsC)
      (.seq (.rep dgC 1 2)
        (.seq (.opt (.lit (":".toList)))
          (.seq (.rep dgC 0 2)
            (.seq (.star wsC)
              (.opt (.alt (.lit ("am".toList)) (.lit ("pm".toList)))))))))

/-- `\d{1,2}:\d{2}\s*(am|pm)?` (line 369). -/
def S2 : RE :=
  .seq (.rep dgC 1 2)
    (.seq (.lit (":".toList))
      (.seq (.rep dgC 2 2)
        (.seq (.star wsC)
          (.opt (.alt (.lit ("am".toList)) (.lit ("pm".toList)))))))

/-- `\d{1,2}\s*(am|pm)` (line 370). -/
def S3 : RE :=
  .seq (.rep dgC 1 2)
    (.seq (.star wsC)
      (.alt (.lit ("am".toList)) (.lit ("pm".toList))))

/-- Python `int()` on a string of ASCII digits. -/
def toNatDigits (s : Str) : Nat := s.foldl (fun a c => a * 10 + (c.toNat - 48)) 0

/-- Python's substring test `pat in s`. -/
def containsSub (pat : Str) : Str → Bool
  | [] => pat.isPrefixOf []
  | c :: t => pat.isPrefixOf (c :: t) || containsSub pat t

/-- A Python `datetime`, at seconds granularity: proleptic-Gregorian
ordinal of the date (as in `date.toordinal`) and seconds within the day. -/
structure PyDateTime where
  day : Int
  sec : Int
deriving DecidableEq, Repr

/-- `date.toordinal()` of `datetime.max` (9999-12-31). -/
def maxOrd : Int := 3652059

/-- `datetime.weekday()`: 0 = Monday.  Ordinal 1 (0001-01-01) is a Monday. -/
def pyWeekday (t : PyDateTime) : Int := (t.day - 1) % 7

def hourOf (t : PyDateTime) : Int := t.sec / 3600

def minuteOf (t : PyDateTime) : Int := t.sec % 3600 / 60

/-- Strip characters satisfying `p` from both ends (Python `str.strip`). -/
def stripChars (p : Char → Bool) (s : Str) : Str :=
  ((s.dropWhile p).reverse.dropWhile p).reverse

def stripWs (s : Str) : Str := stripChars wsC s

def stripPunct (s : Str) : Str := stripChars punctC s

/-- `text.lower().strip()` (line 272), at ASCII granularity. -/
def norm (s : Str) : Str := stripWs (s.map Char.toLower)

/-- Working state extracted by the time-pattern loop (lines 306-326):
`hour`, `minute` (default 0), `period` (optional `am`/`pm`). -/
structure TimeCap where
  hour : Nat
  minute : Nat
  period : Option Str
deriving DecidableEq, Repr

/-- `if groups[1] and groups[1].isdigit(): minute = int(groups[1])`
(lines 316-317). -/
def minuteFrom (g : Option Str) : Nat :=
  match g with
  | some m => if m ≠ [] ∧ m.all dgC then toNatDigits m else 0
  | none => 0

/-- `if groups[2]: period = groups[2]` (lines 318-319). -/
def periodFrom (g : Option Str) : Option Str :=
  match g with
  | some p => if p = [] then none else some p
  | none => none

/-- Field extraction for the three-group patterns (lines 314-319). -/
def timeFrom3 (g1 g2 g3 : Option Str) : TimeCap :=
  ⟨toNatDigits (g1.getD []), minuteFrom g2, periodFrom g3⟩

/-- Truthiness-plus-`isdigit` test on an optional capture
(`groups[1] and groups[1].isdigit()`). -/
def digitsGroup (g : Option Str) : Bool :=
  match g with
  | some m => !m.isEmpty && m.all dgC
  | none => false

/-- Field extraction for the two-group pattern (lines 320-325). -/
def timeFrom2 (g1 g2 : Option Str) : TimeCap :=
  if g2 = some ("am".toList) ∨ g2 = some ("pm".toList) then
    ⟨toNatDigits (g1.getD []), 0, g2⟩
  else if digitsGroup g2 then
    ⟨toNatDigits (g1.getD []), toNatDigits ((Option.getD g2 [])), none⟩
  else
    ⟨toNatDigits (g1.getD []), 0, none⟩

/-- The `for pattern in time_patterns` loop (lines 308-326): first-match
wins over the patterns in order. -/
def findTime (s : Str) : Option TimeCap :=
  match reSearch P1 s with
  | some (_, _, cs) => some (timeFrom3 (capGet cs 1) (capGet cs 2) (capGet cs 3))
  | none =>
    match reSearch P2 s with
    | some (_, _, cs) => some (timeFrom3 (capGet cs 1) (capGet cs 2) (capGet cs 3))
    | none =>
      match reSearch P3 s with
      | some (_, _, cs) => some (timeFrom2 (capGet cs 1) (capGet cs 2))
      | none => none

/-- 12h → 24h conversion (lines 331-335). -/
def to24 (tc : TimeCap) : Nat × Nat :=
  if tc.period = some ("pm".toList) ∧ tc.hour < 12 then (tc.hour + 12, tc.minute)
  else if tc.period = some ("am".toList) ∧ tc.hour = 12 then (0, tc.minute)
  else (tc.hour, tc.minute)

/-- The `for day_name, weekday in day_map.items()` scan (lines 346-347):
Python dicts iterate in insertion order, Monday first. -/
def findWeekday (s : Str) : Option Nat :=
  if containsSub ("monday".toList) s then some 0
  else if containsSub ("tuesday".toList) s then some 1
  else if containsSub ("wednesday".toList) s then some 2
  else if containsSub ("thursday".toList) s then some 3
  else if containsSub ("friday".toList) s then some 4
  else if containsSub ("saturday".toList) s then some 5
  else if containsSub ("sunday".toList) s then some 6
  else none

/-- Day resolution (lines 338-356), returned as the number of days added
to `now`'s date. -/
def dateOffset (s : Str) (now : PyDateTime) : Int :=
  if containsSub ("tomorrow".toList) s then 1
  else if containsSub ("today".toList) s then 0
  else
    match findWeekday s with
    | none => 0
    | some w =>
      if (w : Int) - pyWeekday now ≤ 0 then
        if containsSub ("next".toList) s then (w : Int) - pyWeekday now + 7
        else if (w : Int) - pyWeekday now < 0 then (w : Int) - pyWeekday now + 7
        else (w : Int) - pyWeekday now
      else (w : Int) - pyWeekday now

/-- `re.search(r'in\s+(\d+)\s*hours?', text)` with `int(group(1))`
(lines 298-300). -/
def inHoursN (s : Str) : Option Nat :=
  match reSearch Pin s with
  | some (_, _, cs) => some (toNatDigits ((capGet cs 1).getD []))
  | none => none

def noTimeMsg : Str :=
  "Couldn't find a time. Try: 'tomorrow at 2pm' or 'monday 3:30pm'".toList

/-- `f"Invalid time: {e}"` (line 362), with CPython's `time` constructor
messages: the hour is validated before the minute. -/
def invalidMsg (h _m : Nat) : Str :=
  if 23 < h then "Invalid time: hour must be in 0..23".toList
  else "Invalid time: minute must be in 0..59".toList

/-- Title extraction on the main path (lines 365-371): the four
substitutions in source order, then `strip(' ,-:')`. -/
def mkTitle (s : Str) : Str :=
  stripPunct (reSubAll S3 (reSubAll S2 (reSubAll S1 (reSubAll S0 s))))

/-- `title if title else None` (lines 303 and 373). -/
def titleOpt (t : Str) : Option Str := if t = [] then none else some t

/-- Parse outcome.  `ok` is the `(datetime, title-or-None)` tuple, `err`
the `(None, message)` tuple; `raised` models an uncaught `OverflowError`
escaping the function. -/
inductive PResult where
  | ok : PyDateTime → Option Str → PResult
  | err : Str → PResult
  | raised : PResult
deriving DecidableEq, Repr

/-- The `in X hours` branch (lines 299-303).  `timedelta(hours=hours)`
raises `OverflowError` when its normalised day count exceeds 999999999,
and `now + timedelta` raises when the result leaves the
`datetime.min ... datetime.max` range; neither error is caught. -/
def inHoursResult (text : Str) (now : PyDateTime) (n : Nat) : PResult :=
  if 999999999 < n / 24 then .raised
  else if (now.day * 86400 + now.sec + (n : Int) * 3600) / 86400 < 1 ∨
      maxOrd < (now.day * 86400 + now.sec + (n : Int) * 3600) / 86400 then .raised
  else .ok ⟨(now.day * 86400 + now.sec + (n : Int) * 3600) / 86400,
            (now.day * 86400 + now.sec + (n : Int) * 3600) % 86400⟩
    (titleOpt (stripWs (reSubAll Pin text)))

/-- The main path after a time was found (lines 338-373): day resolution
(`now + timedelta(days=...)` raises on leaving the datetime range, not
caught), then `datetime.combine` whose `ValueError` for an out-of-range
hour or minute IS caught (lines 359-362), then title extraction. -/
def mainResult (text : Str) (now : PyDateTime) (hm : Nat × Nat) : PResult :=
  if now.day + dateOffset text now < 1 ∨ maxOrd < now.day + dateOffset text now then .raised
  else if 23 < hm.1 ∨ 59 < hm.2 then .err (invalidMsg hm.1 hm.2)
  else .ok ⟨now.day + dateOffset text now, (hm.1 : Int) * 3600 + (hm.2 : Int) * 60⟩
    (titleOpt (mkTitle text))

/-- `_parse_natural_time` (lines 259-373).  The reference instant `now`
stands for the `datetime.now()` read on line 273. -/
def parse (input : Str) (now : PyDateTime) : PResult :=
  match inHoursN (norm input) with
  | some n => inHoursResult (norm input) now n
  | none =>
    match findTime (norm input) with
    | none => .err noTimeMsg
    | some tc => mainResult (norm input) now (to24 tc)

/-! ### Helper lemmas -/

theorem parse_inHours_eq {input : Str} (now : PyDateTime) {n : Nat}
    (h : inHoursN (norm input) = some n) :
    parse input now = inHoursResult (norm input) now n := by
  unfold parse
  rw [h]

theorem parse_main_eq {input : Str} (now : PyDateTime) {tc : TimeCap}
    (h1 : inHoursN (norm input) = none) (h2 : findTime (norm input) = some tc) :
    parse input now = mainResult (norm input) now (to24 tc) := by
  unfold parse
  rw [h1, h2]

theorem parse_noTime_eq {input : Str} (now : PyDateTime)
    (h1 : inHoursN (norm input) = none) (h2 : findTime (norm input) = none) :
    parse input now = .err noTimeMsg := by
  unfold parse
  rw [h1, h2]

theorem findWeekday_le {s : Str} {w : Nat} (h : findWeekday s = some w) : w ≤ 6 := by
  unfold findWeekday at h
  split_ifs at h <;> simp_all <;> omega

theorem pyWeekday_nonneg (t : PyDateTime) : 0 ≤ pyWeekday t :=
  Int.emod_nonneg _ (by norm_num)

theorem pyWeekday_lt (t : PyDateTime) : pyWeekday t < 7 :=
  Int.emod_lt_of_pos _ (by norm_num)

theorem dateOffset_bounds (s : Str) (now : PyDateTime) :
    0 ≤ dateOffset s now ∧ dateOffset s now ≤ 7 := by
  have hnn := pyWeekday_nonneg now
  have hlt := pyWeekday_lt now
  unfold dateOffset
  by_cases h1 : containsSub ("tomorrow".toList) s = true
  · simp only [h1, if_true]
    omega
  · by_cases h2 : containsSub ("today".toList) s = true
    · simp only [h1, h2, if_true, if_false]
      omega
    · simp only [h1, h2, if_false]
      cases hW : findWeekday s with
      | none => simp
      | some w =>
        have hle := findWeekday_le hW
        dsimp only
        split_ifs <;> omega

theorem mainResult_ok {text : Str} {now : PyDateTime} {hm : Nat × Nat}
    {t : PyDateTime} {title : Option Str}
    (h : mainResult text now hm = .ok t title) :
    t.day = now.day + dateOffset text now ∧
    t.sec = (hm.1 : Int) * 3600 + (hm.2 : Int) * 60 ∧
    hm.1 ≤ 23 ∧ hm.2 ≤ 59 ∧ title = titleOpt (mkTitle text) := by
  unfold mainResult at h
  split_ifs at h with hc1 hc2
  all_goals first
    | exact PResult.noConfusion h
    | (rw [PResult.ok.injEq] at h
       obtain ⟨ht, htitle⟩ := h
       subst ht
       exact ⟨rfl, rfl, by omega, by omega, htitle.symm⟩)

theorem inHoursResult_ok {text : Str} {now : PyDateTime} {n : Nat}
    {t : PyDateTime} {title : Option Str}
    (h : inHoursResult text now n = .ok t title) :
    t.day = (now.day * 86400 + now.sec + (n : Int) * 3600) / 86400 ∧
    t.sec = (now.day * 86400 + now.sec + (n : Int) * 3600) % 86400 ∧
    title = titleOpt (stripWs (reSubAll Pin text)) := by
  unfold inHoursResult at h
  split_ifs at h with hc1 hc2
  all_goals first
    | exact PResult.noConfusion h
    | (rw [PResult.ok.injEq] at h
       obtain ⟨ht, htitle⟩ := h
       subst ht
       exact ⟨rfl, rfl, htitle.symm⟩)

theorem titleOpt_some {s t : Str} (h : titleOpt s = some t) : t = s ∧ s ≠ [] := by
  unfold titleOpt at h
  split_ifs at h with hc
  simp only [Option.some.injEq] at h
  exact ⟨h.symm, hc⟩

/-- Both ends of a list are clean of `p`-characters. -/
def trimmedOf (p : Char → Bool) (l : Str) : Prop :=
  (∀ c, l.head? = some c → p c = false) ∧ (∀ c, l.getLast? = some c → p c = false)

theorem dropWhile_head_not (p : Char → Bool) :
    ∀ (l : Str) (c : Char), (l.dropWhile p).head? = some c → p c = false := by
  intro l
  induction l with
  | nil => intro c h; simp at h
  | cons a tl ih =>
    intro c h
    by_cases hp : p a
    · rw [List.dropWhile_cons, if_pos hp] at h
      exact ih c h
    · rw [List.dropWhile_cons, if_neg hp] at h
      simp only [List.head?_cons, Option.some.injEq] at h
      subst h
      simpa using hp

theorem dropWhile_getLast_eq (p : Char → Bool) :
    ∀ (l : Str) (c : Char), (l.dropWhile p).getLast? = some c → l.getLast? = some c := by
  intro l
  induction l with
  | nil => intro c h; simp at h
  | cons a tl ih =>
    intro c h
    by_cases hp : p a
    · rw [List.dropWhile_cons, if_pos hp] at h
      have htl := ih c h
      have : tl ≠ [] := by
        intro he
        subst he
        simp at htl
      cases tl with
      | nil => exact absurd rfl this
      | cons b tl2 => rw [List.getLast?_cons_cons]; exact htl
    · rw [List.dropWhile_cons, if_neg hp] at h
      exact h

theorem stripChars_trimmed (p : Char → Bool) (s : Str) :
    trimmedOf p (stripChars p s) := by
  unfold stripChars trimmedOf
  constructor
  · intro c h
    rw [List.head?_reverse] at h
    have h2 := dropWhile_getLast_eq p _ _ h
    rw [List.getLast?_reverse] at h2
    exact dropWhile_head_not p _ _ h2
  · intro c h
    rw [List.getLast?_reverse] at h
    exact dropWhile_head_not p _ _ h

theorem dateOffset_weekday {s : Str} (now : PyDateTime) {w : Nat}
    (hTom : containsSub ("tomorrow".toList) s = false)
    (hTod : containsSub ("today".toList) s = false)
    (hW : findWeekday s = some w) :
    dateOffset s now =
      if (w : Int) - pyWeekday now ≤ 0 then
        if containsSub ("next".toList) s then (w : Int) - pyWeekday now + 7
        else if (w : Int) - pyWeekday now < 0 then (w : Int) - pyWeekday now + 7
        else (w : Int) - pyWeekday now
      else (w : Int) - pyWeekday now := by
  unfold dateOffset
  rw [hTom, hTod, hW]
  rfl

/-! ### Claims -/

/-- Claim C1, counterexample: the input `friday 10am doctor` with the
reference instant a Friday (ordinal day 5, weekday 4, 08:00) contains the
weekday name `friday` and none of `tomorrow`, `today`, `next`, and the
named weekday equals the reference weekday; yet `parse` resolves the
target to the reference date itself (ordinal 5), not to the reference
date plus 7 days (ordinal 12). -/
theorem C1_counterexample :
    findWeekday (norm ("friday 10am doctor".toList)) = some 4 ∧
    pyWeekday ⟨5, 28800⟩ = 4 ∧
    containsSub ("tomorrow".toList) (norm ("friday 10am doctor".toList)) = false ∧
    containsSub ("today".toList) (norm ("friday 10am doctor".toList)) = false ∧
    containsSub ("next".toList) (norm ("friday 10am doctor".toList)) = false ∧
    parse ("friday 10am doctor".toList) ⟨5, 28800⟩ =
      .ok ⟨5, 36000⟩ (some ("doctor".toList)) := by
  decide

/-- Claim C1, amended: for every input whose (first-found) weekday name
equals the reference weekday, with none of `tomorrow`, `today`, `next`
and no `in N hours` phrase present, a successful parse resolves the
target date to the reference date itself (the zero offset is kept), never
rolling forward to the next week. -/
theorem C1_weekdayToday (text : Str) (now t : PyDateTime)
    (title : Option Str) (w : Nat)
    (hIH : inHoursN (norm text) = none)
    (hTom : containsSub ("tomorrow".toList) (norm text) = false)
    (hTod : containsSub ("today".toList) (norm text) = false)
    (hNext : containsSub ("next".toList) (norm text) = false)
    (hW : findWeekday (norm text) = some w)
    (hEq : (w : Int) = pyWeekday now)
    (hParse : parse text now = .ok t title) :
    t.day = now.day := by
  cases hFT : findTime (norm text) with
  | none =>
    rw [parse_noTime_eq now hIH hFT] at hParse
    exact PResult.noConfusion hParse
  | some tc =>
    rw [parse_main_eq now hIH hFT] at hParse
    obtain ⟨hday, -, -, -, -⟩ := mainResult_ok hParse
    have h0 : dateOffset (norm text) now = 0 := by
      rw [dateOffset_weekday now hTom hTod hW, hNext]
      split_ifs <;> first | omega | simp_all
    omega

/-- Claim C1, witness for the amended theorem at the counterexample
input: the resolved day equals the reference day. -/
theorem C1_weekdayToday_witness :
    (⟨5, 36000⟩ : PyDateTime).day = (⟨5, 28800⟩ : PyDateTime).day :=
  C1_weekdayToday ("friday 10am doctor".toList) ⟨5, 28800⟩ ⟨5, 36000⟩
    (some ("doctor".toList)) 4
    (by decide) (by decide) (by decide) (by decide) (by decide) (by decide) (by decide)

/-- Claim C2, counterexample: `next tuesday 3pm` with the reference a
Monday (ordinal day 1, weekday 0) resolves to ordinal day 2 — only one
day after the reference, not at least 7 days as claimed: when the plain
weekday offset is positive the code never adds the extra week. -/
theorem C2_counterexample :
    containsSub ("next".toList) (norm ("next tuesday 3pm".toList)) = true ∧
    findWeekday (norm ("next tuesday 3pm".toList)) = some 1 ∧
    parse ("next tuesday 3pm".toList) ⟨1, 0⟩ = .ok ⟨2, 54000⟩ none ∧
    ¬ ((1 : Int) + 7 ≤ 2) := by
  decide

/-- Claim C2, amended: for inputs containing `next` and a weekday name
(no `tomorrow`/`today`, no `in N hours` phrase), a successful parse adds
7 days only when the plain weekday offset `w - now.weekday()` is ≤ 0; a
positive plain offset is used unchanged.  The target is therefore between
1 and 7 days after the reference date, and can be fewer than 7. -/
theorem C2_nextWeekday (text : Str) (now t : PyDateTime)
    (title : Option Str) (w : Nat)
    (hIH : inHoursN (norm text) = none)
    (hTom : containsSub ("tomorrow".toList) (norm text) = false)
    (hTod : containsSub ("today".toList) (norm text) = false)
    (hNext : containsSub ("next".toList) (norm text) = true)
    (hW : findWeekday (norm text) = some w)
    (hParse : parse text now = .ok t title) :
    t.day = now.day +
      (if (w : Int) - pyWeekday now ≤ 0 then (w : Int) - pyWeekday now + 7
       else (w : Int) - pyWeekday now) ∧
    now.day < t.day ∧ t.day ≤ now.day + 7 := by
  have hwle := findWeekday_le hW
  have hnn := pyWeekday_nonneg now
  have hlt := pyWeekday_lt now
  cases hFT : findTime (norm text) with
  | none =>
    rw [parse_noTime_eq now hIH hFT] at hParse
    exact PResult.noConfusion hParse
  | some tc =>
    rw [parse_main_eq now hIH hFT] at hParse
    obtain ⟨hday, -, -, -, -⟩ := mainResult_ok hParse
    have h0 : dateOffset (norm text) now =
        if (w : Int) - pyWeekday now ≤ 0 then (w : Int) - pyWeekday now + 7
        else (w : Int) - pyWeekday now := by
      rw [dateOffset_weekday now hTom hTod hW, hNext]
      split_ifs <;> first | rfl | omega | simp_all
    rw [h0] at hday
    split_ifs at hday ⊢ <;> omega

/-- Claim C2, witness for the amended theorem: `next monday 3pm` on a
Saturday (ordinal 6, weekday 5) resolves to ordinal 8, two days out. -/
theorem C2_nextWeekday_witness :
    (⟨8, 54000⟩ : PyDateTime).day = (⟨6, 0⟩ : PyDateTime).day +
      (if ((0 : Nat) : Int) - pyWeekday ⟨6, 0⟩ ≤ 0 then
          ((0 : Nat) : Int) - pyWeekday ⟨6, 0⟩ + 7
       else ((0 : Nat) : Int) - pyWeekday ⟨6, 0⟩) ∧
    (⟨6, 0⟩ : PyDateTime).day < (⟨8, 54000⟩ : PyDateTime).day ∧
    (⟨8, 54000⟩ : PyDateTime).day ≤ (⟨6, 0⟩ : PyDateTime).day + 7 :=
  C2_nextWeekday ("next monday 3pm".toList) ⟨6, 0⟩ ⟨8, 54000⟩ none 0
    (by decide) (by decide) (by decide) (by decide) (by decide) (by decide)

/-- Claim C3, counterexample: the input `in 100000000000 hours` makes
`timedelta(hours=...)` overflow (100000000000 // 24 > 999999999), so the
call raises an uncaught `OverflowError` instead of returning a value. -/
theorem C3_counterexample :
    parse ("in 100000000000 hours".toList) ⟨1, 0⟩ = .raised := by
  decide

/-- Claim C3, amended: for every input with no `in N hours` phrase, and a
reference date inside the representable range with at least 7 days of
headroom before `datetime.max`, parse returns normally — either a
resolved value or a failure value (out-of-range hour or minute digits
yield the `Invalid time` failure, not an exception).  Only the `in N
hours` branch (or date arithmetic at the very end of the datetime range)
can raise, namely `OverflowError` for huge `N`. -/
theorem C3_noRaise (text : Str) (now : PyDateTime)
    (hlo : 1 ≤ now.day) (hhi : now.day + 7 ≤ maxOrd)
    (hIH : inHoursN (norm text) = none) :
    parse text now ≠ .raised := by
  cases hFT : findTime (norm text) with
  | none =>
    rw [parse_noTime_eq now hIH hFT]
    exact fun h => PResult.noConfusion h
  | some tc =>
    rw [parse_main_eq now hIH hFT]
    have hb := dateOffset_bounds (norm text) now
    unfold mainResult
    split_ifs with hc1 hc2
    · exfalso
      obtain ⟨hb0, hb7⟩ := hb
      rcases hc1 with h | h <;> omega
    · exact fun h => PResult.noConfusion h
    · exact fun h => PResult.noConfusion h

/-- Claim C3, witness for the amended theorem at a concrete input. -/
theorem C3_noRaise_witness :
    parse ("hello".toList) ⟨1, 0⟩ ≠ .raised :=
  C3_noRaise ("hello".toList) ⟨1, 0⟩ (by decide) (by decide) (by decide)

/-- Claim C4, counterexample: `in 48000000000 hours` contains an
`in N hours` phrase with a non-negative integer N, yet parse does not
return the reference time plus N hours — it raises `OverflowError`
(48000000000 // 24 = 2000000000 exceeds timedelta's 999999999-day
limit). -/
theorem C4_counterexample :
    inHoursN (norm ("in 48000000000 hours".toList)) = some 48000000000 ∧
    parse ("in 48000000000 hours".toList) ⟨1, 0⟩ = .raised := by
  decide

/-- Claim C4, amended: whenever the text contains an `in N hours` phrase
and the arithmetic stays inside Python's datetime range, parse returns
exactly the reference time plus N hours (as an exact equation on absolute
seconds), with the title obtained by deleting the offset phrase and
stripping whitespace (absent when empty); the branch bypasses all other
extraction — the result is fully determined by the `in N hours` match. -/
theorem C4_inHours (text : Str) (now : PyDateTime) (n : Nat)
    (hIH : inHoursN (norm text) = some n)
    (htd : n / 24 ≤ 999999999)
    (hlo : 1 ≤ now.day) (hsec : 0 ≤ now.sec)
    (hhi : now.day * 86400 + now.sec + (n : Int) * 3600 ≤ maxOrd * 86400 + 86399) :
    ∃ t : PyDateTime,
      parse text now = .ok t (titleOpt (stripWs (reSubAll Pin (norm text)))) ∧
      t.day * 86400 + t.sec = now.day * 86400 + now.sec + (n : Int) * 3600 := by
  rw [parse_inHours_eq now hIH]
  unfold inHoursResult
  split_ifs with hc1 hc2
  · exact absurd hc1 (by omega)
  · exfalso
    rcases hc2 with h | h <;> omega
  · refine ⟨_, rfl, ?_⟩
    dsimp only
    omega

/-- Claim C4, witness for the amended theorem: `in 2 hours party` at
reference day 1, midnight. -/
theorem C4_inHours_witness :
    ∃ t : PyDateTime,
      parse ("in 2 hours party".toList) ⟨1, 0⟩ =
        .ok t (titleOpt (stripWs (reSubAll Pin (norm ("in 2 hours party".toList))))) ∧
      t.day * 86400 + t.sec =
        (⟨1, 0⟩ : PyDateTime).day * 86400 + (⟨1, 0⟩ : PyDateTime).sec + ((2 : Nat) : Int) * 3600 :=
  C4_inHours ("in 2 hours party".toList) ⟨1, 0⟩ 2
    (by decide) (by decide) (by decide) (by decide) (by decide)

/-- Claim C5, counterexample: `in 2 hours at 5pm party` parses
successfully with the present title `at 5pm party`, and re-parsing that
title alone resolves to a time again (17:00) instead of failing with the
no-time-found error. -/
theorem C5_counterexample :
    parse ("in 2 hours at 5pm party".toList) ⟨1, 0⟩ =
      .ok ⟨1, 7200⟩ (some ("at 5pm party".toList)) ∧
    parse ("at 5pm party".toList) ⟨1, 0⟩ =
      .ok ⟨1, 61200⟩ (some ("party".toList)) := by
  decide

/-- Claim C5, amended: re-parsing the title extracted from a successful
parse fails with the no-time-found error exactly when the title itself
retains no `in N hours` phrase and no time pattern; titles (notably
those produced by the `in N hours` shortcut, which only deletes the
offset phrase) may retain time phrases and then re-parse successfully. -/
theorem C5_titleReparse (s : Str) (now now2 t : PyDateTime) (title : Str)
    (hParse : parse s now = .ok t (some title))
    (h1 : inHoursN (norm title) = none)
    (h2 : findTime (norm title) = none) :
    parse title now2 = .err noTimeMsg :=
  parse_noTime_eq now2 h1 h2

/-- Claim C5, witness for the amended theorem: `lunch tomorrow at 2pm`
parses with title `lunch`, which re-parses to the no-time failure. -/
theorem C5_titleReparse_witness :
    parse ("lunch".toList) ⟨1, 1⟩ = .err noTimeMsg :=
  C5_titleReparse ("lunch tomorrow at 2pm".toList) ⟨1, 0⟩ ⟨1, 1⟩ ⟨2, 50400⟩
    ("lunch".toList) (by decide) (by decide) (by decide)

/-- Claim C6, counterexample: the input `15` — a bare hour with no
meridiem and no colon — is not accepted as a time: all three time
patterns require `at`, a colon, or a meridiem, so parse fails with the
no-time-found error instead of resolving to 15:00. -/
theorem C6_counterexample :
    parse ("15".toList) ⟨1, 0⟩ = .err noTimeMsg := by
  decide

/-- Claim C6, amended: a bare hour with no meridiem and no colon is
accepted only through the `at <hour>` pattern: `at 15 standup` resolves
to 15:00 unchanged and `at 3 standup` resolves to 03:00 (not assumed
PM); a standalone bare hour token without `at` is rejected with the
no-time-found error. -/
theorem C6_bareHour :
    parse ("at 15 standup".toList) ⟨1, 0⟩ =
      .ok ⟨1, 54000⟩ (some ("standup".toList)) ∧
    parse ("at 3 standup".toList) ⟨1, 0⟩ =
      .ok ⟨1, 10800⟩ (some ("standup".toList)) := by
  decide

/-- Claim C7: for every input with no `in N hours` phrase, if none of
the three ordered time-of-day patterns (`at H[:MM][am|pm]`, `HH:MM[am|pm]`,
`H am|pm`) matches anywhere in the normalised text, parse fails and the
reason is exactly the no-time-found message. -/
theorem C7_noTimeMessage (text : Str) (now : PyDateTime)
    (hIH : inHoursN (norm text) = none)
    (h1 : reSearch P1 (norm text) = none)
    (h2 : reSearch P2 (norm text) = none)
    (h3 : reSearch P3 (norm text) = none) :
    parse text now = .err noTimeMsg := by
  have hFT : findTime (norm text) = none := by
    unfold findTime
    rw [h1, h2, h3]
  exact parse_noTime_eq now hIH hFT

/-- Claim C7, witness at the concrete input `hello world`. -/
theorem C7_noTimeMessage_witness :
    parse ("hello world".toList) ⟨1, 0⟩ = .err noTimeMsg :=
  C7_noTimeMessage ("hello world".toList) ⟨1, 0⟩
    (by decide) (by decide) (by decide) (by decide)

/-- Claim C8: every successfully resolved timestamp has hour in [0,23]
and minute in [0,59], and — except on the `in N hours` shortcut — its
date is the reference date or later. -/
theorem C8_validRange (text : Str) (now t : PyDateTime) (title : Option Str)
    (hParse : parse text now = .ok t title) :
    0 ≤ hourOf t ∧ hourOf t ≤ 23 ∧ 0 ≤ minuteOf t ∧ minuteOf t ≤ 59 ∧
    (inHoursN (norm text) = none → now.day ≤ t.day) := by
  cases hIH : inHoursN (norm text) with
  | some n =>
    rw [parse_inHours_eq now hIH] at hParse
    obtain ⟨hday, hsec, -⟩ := inHoursResult_ok hParse
    unfold hourOf minuteOf
    rw [hsec]
    refine ⟨by omega, by omega, by omega, by omega, fun h => ?_⟩
    exact Option.noConfusion h
  | none =>
    cases hFT : findTime (norm text) with
    | none =>
      rw [parse_noTime_eq now hIH hFT] at hParse
      exact PResult.noConfusion hParse
    | some tc =>
      rw [parse_main_eq now hIH hFT] at hParse
      obtain ⟨hday, hsec, hh, hmin, -⟩ := mainResult_ok hParse
      have hb := dateOffset_bounds (norm text) now
      unfold hourOf minuteOf
      rw [hsec, hday]
      exact ⟨by omega, by omega, by omega, by omega, fun _ => by omega⟩

/-- Claim C8, witness at the concrete input `tomorrow at 2pm`, reference
ordinal day 1, midnight; the resolved value is day 2 at 14:00. -/
theorem C8_validRange_witness :
    0 ≤ hourOf ⟨2, 50400⟩ ∧ hourOf ⟨2, 50400⟩ ≤ 23 ∧
    0 ≤ minuteOf ⟨2, 50400⟩ ∧ minuteOf ⟨2, 50400⟩ ≤ 59 ∧
    (inHoursN (norm ("tomorrow at 2pm".toList)) = none →
      (⟨1, 0⟩ : PyDateTime).day ≤ (⟨2, 50400⟩ : PyDateTime).day) :=
  C8_validRange ("tomorrow at 2pm".toList) ⟨1, 0⟩ ⟨2, 50400⟩ none (by decide)

/-- Claim C9, counterexample: `party, in 2 hours` resolves through the
`in N hours` shortcut with title `party,` — the title keeps its trailing
comma because that branch strips whitespace only, not `,`, `-`, `:`. -/
theorem C9_counterexample :
    parse ("party, in 2 hours".toList) ⟨1, 0⟩ =
      .ok ⟨1, 7200⟩ (some ("party,".toList)) ∧
    ("party,".toList).getLast? = some ',' := by
  decide

/-- Claim C9, amended: a present title from the non-shortcut path has no
leading or trailing space, comma, hyphen or colon; a present title from
the `in N hours` shortcut is trimmed of whitespace only, and may keep
leading or trailing commas, hyphens or colons. -/
theorem C9_titleTrim (text : Str) (now t : PyDateTime) (title : Str)
    (hParse : parse text now = .ok t (some title)) :
    (inHoursN (norm text) = none → trimmedOf punctC title) ∧
    (inHoursN (norm text) ≠ none → trimmedOf wsC title) := by
  cases hIH : inHoursN (norm text) with
  | some n =>
    rw [parse_inHours_eq now hIH] at hParse
    obtain ⟨-, -, htitle⟩ := inHoursResult_ok hParse
    obtain ⟨heq, -⟩ := titleOpt_some htitle.symm
    constructor
    · intro h
      exact Option.noConfusion h
    · intro _
      rw [heq]
      unfold stripWs
      exact stripChars_trimmed wsC _
  | none =>
    cases hFT : findTime (norm text) with
    | none =>
      rw [parse_noTime_eq now hIH hFT] at hParse
      exact PResult.noConfusion hParse
    | some tc =>
      rw [parse_main_eq now hIH hFT] at hParse
      obtain ⟨-, -, -, -, htitle⟩ := mainResult_ok hParse
      obtain ⟨heq, -⟩ := titleOpt_some htitle.symm
      constructor
      · intro _
        rw [heq]
        unfold mkTitle stripPunct
        exact stripChars_trimmed punctC _
      · intro h
        exact absurd rfl h

/-- Claim C9, witness for the amended theorem at the shortcut input
`party, in 2 hours` with title `party,`. -/
theorem C9_titleTrim_witness :
    (inHoursN (norm ("party, in 2 hours".toList)) = none →
      trimmedOf punctC ("party,".toList)) ∧
    (inHoursN (norm ("party, in 2 hours".toList)) ≠ none →
      trimmedOf wsC ("party,".toList)) :=
  C9_titleTrim ("party, in 2 hours".toList) ⟨1, 0⟩ ⟨1, 7200⟩ ("party,".toList)
    (by decide)

/-- Claim C10: the `at <hour>` pattern has no word-boundary requirement:
`chat 5 tomorrow`, whose only time-like token is the trailing `at` of
`chat` followed by a number, resolves to 05:00 tomorrow (with the
mangled title `ch`) instead of failing with the no-time-found error. -/
theorem C10_atNoBoundary :
    parse ("chat 5 tomorrow".toList) ⟨1, 0⟩ =
      .ok ⟨2, 18000⟩ (some ("ch".toList)) ∧
    hourOf ⟨2, 18000⟩ = 5 := by
  decide

end QuickSched
